import Mathlib

/- Shallow embedding of the job-lifecycle subsystem of ln2t_watchdog:
   the command descriptor builder (parser.py, class ToolSpec), the process
   launcher and run-history ledger (runner.py), the liveness reconstructor
   (status.py, get_running_jobs), the termination controller (runner.py,
   kill_process_group / force_kill_process_group) and the confirmation step
   of the kill command (cli.py, cmd_kill).

   Operating-system and filesystem interactions are modelled by explicit
   outcome oracles (which OS result each call returns) together with event
   traces listing the filesystem actions the code performs; a Python
   exception escaping a function is modelled by an Except error value. -/

/-! ### Command descriptor builder (parser.py, class ToolSpec) -/

/-- Python truthiness of an optional string field: a guard such as
`if self.version:` is true exactly when the field is not None and not the
empty string. -/
def pyTruthyStr : Option String → Bool
  | none => false
  | some s => !(s == "")

/-- parser.py, dataclass ToolSpec.  `config_file` is a diagnostic
back-reference only; it is carried but never read by the embedded code. -/
structure ToolSpec where
  tool_name : String
  dataset_name : String
  version : Option String
  tool_args : Option String
  participant_labels : List String
  config_file : Option String
  deriving DecidableEq

/-- parser.py, ToolSpec.build_command: starts from
`["ln2t_tools", tool, "--dataset", dataset]` and extends the list under the
Python truthiness guards `if self.version`, `if self.tool_args`,
`if self.participant_labels`. -/
def ToolSpec.build_command (s : ToolSpec) : List String :=
  let cmd := ["ln2t_tools", s.tool_name, "--dataset", s.dataset_name]
  let cmd := if pyTruthyStr s.version then cmd ++ ["--version", s.version.getD ""] else cmd
  let cmd := if pyTruthyStr s.tool_args then cmd ++ ["--tool-args", s.tool_args.getD ""] else cmd
  let cmd := if s.participant_labels.isEmpty then cmd
             else cmd ++ ["--participant-label"] ++ s.participant_labels
  cmd

/-- parser.py, ToolSpec.build_command_string: same part list except that
tool_args is wrapped in double quotes for display, joined by single spaces. -/
def ToolSpec.build_command_string (s : ToolSpec) : String :=
  let parts := ["ln2t_tools", s.tool_name, "--dataset", s.dataset_name]
  let parts := if pyTruthyStr s.version then parts ++ ["--version", s.version.getD ""] else parts
  let parts := if pyTruthyStr s.tool_args then
                 parts ++ ["--tool-args", "\"" ++ s.tool_args.getD "" ++ "\""]
               else parts
  let parts := if s.participant_labels.isEmpty then parts
               else parts ++ ["--participant-label"] ++ s.participant_labels
  String.intercalate " " parts

/-- The argument vector of spec section 4.1, transcribed from the spec words:
`[toolRunnerName, toolName, "--dataset", dataset]` followed by the optional
`--version`, `--tool-args` and `--participant-label` blocks, where an
optional block is emitted exactly when its field is present as a non-empty
value (Python truthiness) and omitted entirely otherwise. -/
def specArgumentVector (s : ToolSpec) : List String :=
  ["ln2t_tools", s.tool_name, "--dataset", s.dataset_name]
    ++ (if pyTruthyStr s.version then ["--version", s.version.getD ""] else [])
    ++ (if pyTruthyStr s.tool_args then ["--tool-args", s.tool_args.getD ""] else [])
    ++ (if s.participant_labels.isEmpty then [] else "--participant-label" :: s.participant_labels)

/-! ### Decimal rendering of a pid (Python str(int)) -/

/-- Value of a list of decimal digit characters, most significant first. -/
def digitsVal (ds : List Char) : Nat :=
  ds.foldl (fun a c => a * 10 + (c.toNat - 48)) 0

/-- Fuel-driven decimal printer; fuel bounds the number of divisions by 10. -/
def decimalDigitsAux : Nat → Nat → List Char
  | 0, _ => []
  | fuel + 1, n =>
    if n < 10 then [Nat.digitChar n]
    else decimalDigitsAux fuel (n / 10) ++ [Nat.digitChar (n % 10)]

/-- Decimal digit characters of n, most significant first: the model of
Python str(int) used wherever the code interpolates a pid into a string. -/
def decimalDigits (n : Nat) : List Char :=
  decimalDigitsAux (n + 1) n

/-- Decimal string of a Nat, the model of Python str(int). -/
def natStr (n : Nat) : String :=
  String.mk (decimalDigits n)

/-! ### Process launcher and run-history ledger (runner.py) -/

/-- Filesystem actions run_tool and _record_run can perform, recorded as an
event trace. -/
inductive FsEvent
  | mkdirLogDir (path : String)
  | createLogFile (path : String)
  | spawn (cmd : List String)
  | ledgerAppend (line : String)
  | lastRunWrite
  deriving DecidableEq

/-- Outcome of the launch attempt (opening the two log files plus
subprocess.Popen): a pid on success, FileNotFoundError, or another OSError.
The two log files are opened before Popen runs, so on each outcome the two
createLogFile events are in the trace; spawn appears only on success. -/
inductive LaunchOutcome
  | launched (pid : Nat)
  | fileNotFound
  | osError (msg : String)
  deriving DecidableEq

/-- Outcome of the ledger I/O inside _record_run: success, an OSError while
creating the state directory or appending to the run-history log (no line
is written), or an OSError while overwriting the last-run marker (the
history line was already appended). -/
inductive RecordOutcome
  | ok
  | appendError (msg : String)
  | markerError (msg : String)
  deriving DecidableEq

/-- OS oracle for one run_tool call. -/
structure RunEnv where
  launch : LaunchOutcome
  recordRun : RecordOutcome
  deriving DecidableEq

/-- runner.py, log_dir_for_dataset: `<dataset>/ln2t_watchdog/logs` (the
mkdir itself is recorded as an FsEvent by run_tool). -/
def log_dir_for_dataset (dataset_dir : String) : String :=
  dataset_dir ++ "/ln2t_watchdog/logs"

/-- runner.py, _log_path: `<log_dir>/<tool>_<timestamp>_<stream>.log`. -/
def _log_path (log_dir tool_name timestamp stream : String) : String :=
  log_dir ++ "/" ++ tool_name ++ "_" ++ timestamp ++ "_" ++ stream ++ ".log"

/-- The run-history line written by _record_run (without its trailing
newline; the ledger is modelled as the list of its lines):
`f"{timestamp}  {spec.dataset_name}  {spec.tool_name}  {status}"`,
a two-space separator between the fields. -/
def record_line (timestamp dataset tool status : String) : String :=
  timestamp ++ "  " ++ dataset ++ "  " ++ tool ++ "  " ++ status

/-- The status text recorded on a successful launch:
`f"STARTED (PID {proc.pid})"`. -/
def started_status (pid : Nat) : String :=
  "STARTED (PID " ++ natStr pid ++ ")"

/-- runner.py, _record_run: appends one line to the run-history log and then
overwrites the last-run marker.  The Python body has no try/except, so an
OSError in either write escapes to the caller (Except.error). -/
def _record_run (out : RecordOutcome) (spec : ToolSpec) (status timestamp : String) :
    Except String Unit × List FsEvent :=
  match out with
  | .ok =>
      (.ok (),
       [.ledgerAppend (record_line timestamp spec.dataset_name spec.tool_name status),
        .lastRunWrite])
  | .appendError m => (.error m, [])
  | .markerError m =>
      (.error m,
       [.ledgerAppend (record_line timestamp spec.dataset_name spec.tool_name status)])

/-- runner.py, run_tool.  Creates the dataset log directory, then in dry-run
mode only emits the display string and returns None; otherwise opens the two
log files, starts the process detached, and records the outcome through
_record_run.  FileNotFoundError and OSError from the launch are caught and
turned into a FAILED record with return value None; an error escaping
_record_run is not caught anywhere in run_tool.  The directory creation is
modelled as always succeeding. -/
def run_tool (env : RunEnv) (spec : ToolSpec) (dataset_dir timestamp : String)
    (dry_run : Bool) : Except String (Option Nat) × List FsEvent :=
  let log_dir := log_dir_for_dataset dataset_dir
  let stdout_path := _log_path log_dir spec.tool_name timestamp "stdout"
  let stderr_path := _log_path log_dir spec.tool_name timestamp "stderr"
  let ev0 : List FsEvent := [.mkdirLogDir log_dir]
  if dry_run then
    (.ok none, ev0)
  else
    match env.launch with
    | .fileNotFound =>
        let r := _record_run env.recordRun spec "FAILED (command not found)" timestamp
        (r.1.map fun _ => none,
         ev0 ++ [.createLogFile stdout_path, .createLogFile stderr_path] ++ r.2)
    | .osError m =>
        let r := _record_run env.recordRun spec ("FAILED (" ++ m ++ ")") timestamp
        (r.1.map fun _ => none,
         ev0 ++ [.createLogFile stdout_path, .createLogFile stderr_path] ++ r.2)
    | .launched pid =>
        let r := _record_run env.recordRun spec (started_status pid) timestamp
        (r.1.map fun _ => some pid,
         ev0 ++ [.createLogFile stdout_path, .createLogFile stderr_path,
                 .spawn spec.build_command] ++ r.2)

/-- The Option-valued return value run_tool produces from a launch outcome
when nothing raises: the pid on success, None on a caught launch failure. -/
def launchPid : LaunchOutcome → Option Nat
  | .launched p => some p
  | .fileNotFound => none
  | .osError _ => none

/-- runner.py, run_all, with the i-th loop iteration using the i-th OS
oracle and the i-th launch timestamp. -/
def run_all_aux (env : Nat → RunEnv) (tss : Nat → String) (dataset_dir : String)
    (dry_run : Bool) : Nat → List ToolSpec → Except String (List (Option Nat)) × List FsEvent
  | _, [] => (.ok [], [])
  | i, spec :: rest =>
    let r := run_tool (env i) spec dataset_dir (tss i) dry_run
    match r.1 with
    | .error e => (.error e, r.2)
    | .ok p =>
      let rr := run_all_aux env tss dataset_dir dry_run (i + 1) rest
      (rr.1.map fun ps => p :: ps, r.2 ++ rr.2)

/-- runner.py, run_all: runs every tool specification in list order,
collecting the returned pids; it has no handler of its own, so an error
escaping run_tool also escapes run_all. -/
def run_all (env : Nat → RunEnv) (tss : Nat → String) (dataset_dir : String)
    (dry_run : Bool) (specs : List ToolSpec) :
    Except String (List (Option Nat)) × List FsEvent :=
  run_all_aux env tss dataset_dir dry_run 0 specs

/-! ### Liveness reconstructor (status.py, get_running_jobs) -/

/-- A job tuple as returned by get_running_jobs:
(pid, dataset_name, tool_name, timestamp). -/
abbrev Job := Nat × String × String × String

/-- The whitespace set of Python str.split(None) and str.strip(), restricted
to the ASCII range: space, tab, newline, carriage return, vertical tab,
form feed. -/
def isPyWs (c : Char) : Bool :=
  c = ' ' || c = '\t' || c = '\n' || c = '\r' || c = '\x0B' || c = '\x0C'

/-- Python line.split(None, maxsplit): skip leading whitespace; with budget
exhausted the remainder (leading whitespace stripped) is the final part;
otherwise take the maximal run of non-whitespace as the next part and
recurse on the rest with one less split. -/
def pySplitMax (ms : Nat) (s : List Char) : List (List Char) :=
  match List.dropWhile isPyWs s with
  | [] => []
  | c :: cs =>
    match ms with
    | 0 => [c :: cs]
    | k + 1 =>
      (c :: cs).takeWhile (fun x => !isPyWs x) ::
        pySplitMax k ((c :: cs).dropWhile (fun x => !isPyWs x))

/-- The parsing contract marker, the characters of "STARTED (PID ". -/
def markerChars : List Char := "STARTED (PID ".data

/-- Literal character matching: if pat is an initial segment of l, return
the remainder of l, else none. -/
def matchChars : List Char → List Char → Option (List Char)
  | [], l => some l
  | _ :: _, [] => none
  | p :: ps, c :: cs => if c = p then matchChars ps cs else none

/-- Python substring containment (`pat in line`): pat occurs starting at
some position of l. -/
def containsSubList (pat : List Char) : List Char → Bool
  | [] => pat.isEmpty
  | c :: cs => (matchChars pat (c :: cs)).isSome || containsSubList pat cs

/-- The regular expression search for `STARTED \(PID (\d+)\)` anchored at
the head of the list: the marker, then at least one digit, then a closing
parenthesis; returns the digit group value. -/
def matchPidAt (l : List Char) : Option Nat :=
  match matchChars markerChars l with
  | none => none
  | some rest =>
    match rest.dropWhile Char.isDigit with
    | ')' :: _ =>
      if rest.takeWhile Char.isDigit = [] then none
      else some (digitsVal (rest.takeWhile Char.isDigit))
    | _ => none

/-- re.search for `STARTED \(PID (\d+)\)`: the leftmost match wins. -/
def findPid : List Char → Option Nat
  | [] => none
  | c :: cs =>
    match matchPidAt (c :: cs) with
    | some n => some n
    | none => findPid cs

/-- status.py, get_running_jobs, the pure per-line parse (lines 284-303):
skip the line unless it contains "STARTED (PID "; extract the pid by the
regex search; split the line on whitespace with maxsplit 3 and require at
least four parts; return (pid, parts[1], parts[2], parts[0]). -/
def parseStartedLine (line : String) : Option Job :=
  if containsSubList markerChars line.data then
    match findPid line.data with
    | none => none
    | some pid =>
      match pySplitMax 3 line.data with
      | t :: d :: tl :: _ :: _ => some (pid, String.mk d, String.mk tl, String.mk t)
      | _ => none
  else none

/-- Outcome of the liveness probe os.kill(pid, 0) on one candidate pid. -/
inductive ProbeResult
  | alive
  | noSuchProcess
  | permissionDenied
  | otherOSError
  deriving DecidableEq

/-- status.py, get_running_jobs (lines 284-319): parse every line of the
run-history log and keep a candidate when the probe succeeds
(ProcessLookupError excludes, PermissionError includes, any other OSError
excludes); the ledger is modelled as its list of lines and the probe as an
outcome oracle per pid. -/
def get_running_jobs (probe : Nat → ProbeResult) (ledger : List String) : List Job :=
  ledger.filterMap fun line =>
    match parseStartedLine line with
    | none => none
    | some j =>
      match probe j.1 with
      | .alive => some j
      | .noSuchProcess => none
      | .permissionDenied => some j
      | .otherOSError => none

/-- The pure parse of the whole ledger, one line at a time. -/
def parseLedger (ledger : List String) : List Job :=
  ledger.filterMap parseStartedLine

/-- zs is an interleaving of xs and ys: a merge preserving the relative
order of each side, as produced by two invocations appending lines to the
shared ledger concurrently. -/
inductive Interleave {α : Type} : List α → List α → List α → Prop
  | nil : Interleave [] [] []
  | left {x : α} {xs ys zs : List α} :
      Interleave xs ys zs → Interleave (x :: xs) ys (x :: zs)
  | right {y : α} {xs ys zs : List α} :
      Interleave xs ys zs → Interleave xs (y :: ys) (y :: zs)

/-! ### Termination controller (runner.py, kill_process_group and
force_kill_process_group) -/

/-- Classes of OSError the signalling calls can raise:
ProcessLookupError, PermissionError, or another OSError. -/
inductive OSFailure
  | processLookup
  | permission
  | other (msg : String)
  deriving DecidableEq

/-- OS oracle for one termination call: outcomes of os.getpgid(pid),
os.kill(pid, 0), os.killpg(pgid, SIGTERM) and os.killpg(pgid, SIGKILL). -/
structure KillEnv where
  getpgid : Except OSFailure Nat
  killCheck : Except OSFailure Unit
  killpgTerm : Except OSFailure Unit
  killpgKill : Except OSFailure Unit

/-- Message of kill_process_group and force_kill_process_group when the
process is gone: `f"Process {pid} not found"`. -/
def msgNotFound (pid : Nat) : String :=
  "Process " ++ natStr pid ++ " not found"

/-- Message of the graceful pre-check when os.kill(pid, 0) raises
ProcessLookupError: `f"Process {pid} not found (already terminated?)"`. -/
def msgAlreadyTerminated (pid : Nat) : String :=
  "Process " ++ natStr pid ++ " not found (already terminated?)"

/-- Message for PermissionError in both termination modes. -/
def msgPermDenied (pid : Nat) : String :=
  "Permission denied to kill PID " ++ natStr pid

/-- Message for any other OSError in the graceful mode. -/
def msgKillFailed (pid : Nat) (m : String) : String :=
  "Failed to kill PID " ++ natStr pid ++ ": " ++ m

/-- Message for any other OSError in the forced mode. -/
def msgForceKillFailed (pid : Nat) (m : String) : String :=
  "Failed to force-kill PID " ++ natStr pid ++ ": " ++ m

/-- The outer except clauses of kill_process_group. -/
def killOuterHandler (pid : Nat) : OSFailure → Bool × String
  | .processLookup => (false, msgNotFound pid)
  | .permission => (false, msgPermDenied pid)
  | .other m => (false, msgKillFailed pid m)

/-- The except clauses of force_kill_process_group. -/
def forceOuterHandler (pid : Nat) : OSFailure → Bool × String
  | .processLookup => (false, msgNotFound pid)
  | .permission => (false, msgPermDenied pid)
  | .other m => (false, msgForceKillFailed pid m)

/-- runner.py, kill_process_group: resolve the group id, probe existence
(only ProcessLookupError is caught by the inner try; any other error from
the probe reaches the outer clauses), then SIGTERM the whole group.  Every
OSError class is converted to a (success, message) pair. -/
def kill_process_group (env : KillEnv) (pid : Nat) : Bool × String :=
  match env.getpgid with
  | .error e => killOuterHandler pid e
  | .ok pgid =>
    match env.killCheck with
    | .error .processLookup => (false, msgAlreadyTerminated pid)
    | .error e => killOuterHandler pid e
    | .ok _ =>
      match env.killpgTerm with
      | .error e => killOuterHandler pid e
      | .ok _ =>
        (true, "Terminated process group " ++ natStr pgid ++ " (PID " ++ natStr pid ++ ")")

/-- runner.py, force_kill_process_group: resolve the group id and SIGKILL
the whole group unconditionally, with the same conversion of every OSError
class to a (success, message) pair. -/
def force_kill_process_group (env : KillEnv) (pid : Nat) : Bool × String :=
  match env.getpgid with
  | .error e => forceOuterHandler pid e
  | .ok pgid =>
    match env.killpgKill with
    | .error e => forceOuterHandler pid e
    | .ok _ =>
      (true, "Force-killed process group " ++ natStr pgid ++ " (PID " ++ natStr pid ++ ")")

/-! ### Kill command confirmation (cli.py, cmd_kill, lines 272-299) -/

/-- Python sorted() comparison on the 4-tuples (pid, dataset, tool,
timestamp): lexicographic, numbers by value and strings by code points. -/
def jobLe (a b : Job) : Bool :=
  if a.1 < b.1 then true
  else if b.1 < a.1 then false
  else if a.2.1 < b.2.1 then true
  else if b.2.1 < a.2.1 then false
  else if a.2.2.1 < b.2.2.1 then true
  else if b.2.2.1 < a.2.2.1 then false
  else decide (a.2.2.2 ≤ b.2.2.2)

/-- Ordered insertion for the model of Python sorted(). -/
def insertJob (j : Job) : List Job → List Job
  | [] => [j]
  | k :: ks => if jobLe j k then j :: k :: ks else k :: insertJob j ks

/-- Model of Python sorted(jobs) under the tuple order. -/
def pySortJobs : List Job → List Job
  | [] => []
  | j :: js => insertJob j (pySortJobs js)

/-- Python response.strip().lower() on the ASCII range: strip the
surrounding whitespace, then lowercase. -/
def stripLower (s : String) : String :=
  String.mk ((((s.data.dropWhile isPyWs).reverse.dropWhile isPyWs).reverse).map Char.toLower)

/-- cli.py, cmd_kill, lines 272-299, from the point where jobs_to_kill has
been selected: an empty selection terminates nothing; a selection of more
than one job prints the list and, unless --force was given, asks
`Proceed? (y/N):` and cancels unless the stripped lowercased response is
exactly "y"; the surviving path kills the sorted selection in order.
Returns (whether the confirmation prompt was issued, pids passed to the
termination functions). -/
def cmd_kill_confirm (jobs_to_kill : List Job) (force : Bool) (response : String) :
    Bool × List Nat :=
  if jobs_to_kill.isEmpty then (false, [])
  else if 1 < jobs_to_kill.length then
    if !force then
      if stripLower response ≠ "y" then (true, [])
      else (true, (pySortJobs jobs_to_kill).map fun j => j.1)
    else (false, (pySortJobs jobs_to_kill).map fun j => j.1)
  else (false, (pySortJobs jobs_to_kill).map fun j => j.1)

/-- Predicate: a string is free of (ASCII) whitespace. -/
def wsFreeStr (s : String) : Prop := ∀ c ∈ s.data, isPyWs c = false

/-- Recursive guard on a pattern suffix: matching it against an input that
begins with two spaces fails, and the guard is preserved when a non-space
head character is consumed.  It holds for "STARTED (PID " because its
first seven characters are letters and its space at index 7 is followed by
a parenthesis, never by a second space. -/
def SpaceGuard : List Char → Prop
  | [] => False
  | c :: ms =>
    (∀ r, matchChars (c :: ms) (' ' :: ' ' :: r) = none) ∧ (c ≠ ' ' → SpaceGuard ms)

/-! ### Theorems: command descriptor builder -/

/-- C5 (counterexample): for a spec whose version field is present as the
empty string, build_command omits the --version flag entirely, whereas the
claim ("followed by [--version, version] iff version is present") predicts
the pair ["--version", ""]. -/
theorem c5_empty_version_counterexample :
    (ToolSpec.mk "fmriprep" "ds" (some "") none [] none).build_command
      = ["ln2t_tools", "fmriprep", "--dataset", "ds"] ∧
    (ToolSpec.mk "fmriprep" "ds" (some "") none [] none).build_command
      ≠ ["ln2t_tools", "fmriprep", "--dataset", "ds", "--version", ""] := by
  exact ⟨rfl, by decide⟩

/-- C5 (amended): build_command returns exactly the base vector followed by
the --version block iff version is present and non-empty (Python
truthiness), then the --tool-args block iff tool_args is present and
non-empty, then the --participant-label block iff the label list is
non-empty; and on the concrete spec of the claim the vector is exactly the
listed one. -/
theorem c5_build_command_is_spec_vector :
    (∀ s : ToolSpec, s.build_command = specArgumentVector s) ∧
    (ToolSpec.mk "fmriprep" "ds" (some "7.2.0") (some "--fs-noreconall")
        ["001", "042"] none).build_command
      = ["ln2t_tools", "fmriprep", "--dataset", "ds", "--version", "7.2.0",
         "--tool-args", "--fs-noreconall", "--participant-label", "001", "042"] := by
  refine ⟨?_, rfl⟩
  intro s
  unfold ToolSpec.build_command specArgumentVector
  by_cases h1 : pyTruthyStr s.version <;> by_cases h2 : pyTruthyStr s.tool_args <;>
    by_cases h3 : s.participant_labels.isEmpty <;> simp [h1, h2, h3]

/-- C10: a version or tool_args field that is the empty string is omitted
from build_command and build_command_string exactly as if it were absent
(omission is decided by truthiness), and an empty participant-label list
contributes no --participant-label block to either form. -/
theorem c10_empty_fields_omitted_by_truthiness :
    (∀ s : ToolSpec, ({ s with version := some "" } : ToolSpec).build_command
        = ({ s with version := none } : ToolSpec).build_command) ∧
    (∀ s : ToolSpec, ({ s with tool_args := some "" } : ToolSpec).build_command
        = ({ s with tool_args := none } : ToolSpec).build_command) ∧
    (∀ s : ToolSpec, ({ s with version := some "" } : ToolSpec).build_command_string
        = ({ s with version := none } : ToolSpec).build_command_string) ∧
    (∀ s : ToolSpec, ({ s with tool_args := some "" } : ToolSpec).build_command_string
        = ({ s with tool_args := none } : ToolSpec).build_command_string) ∧
    (∀ s : ToolSpec, ({ s with participant_labels := [] } : ToolSpec).build_command
        = ["ln2t_tools", s.tool_name, "--dataset", s.dataset_name]
          ++ (if pyTruthyStr s.version then ["--version", s.version.getD ""] else [])
          ++ (if pyTruthyStr s.tool_args then ["--tool-args", s.tool_args.getD ""] else [])) ∧
    (∀ s : ToolSpec, ({ s with participant_labels := [] } : ToolSpec).build_command_string
        = String.intercalate " "
            (["ln2t_tools", s.tool_name, "--dataset", s.dataset_name]
              ++ (if pyTruthyStr s.version then ["--version", s.version.getD ""] else [])
              ++ (if pyTruthyStr s.tool_args then
                    ["--tool-args", "\"" ++ s.tool_args.getD "" ++ "\""]
                  else []))) := by
  refine ⟨?_, ?_, ?_, ?_, ?_, ?_⟩
  · intro s; simp [ToolSpec.build_command, pyTruthyStr]
  · intro s; simp [ToolSpec.build_command, pyTruthyStr]
  · intro s; simp [ToolSpec.build_command_string, pyTruthyStr]
  · intro s; simp [ToolSpec.build_command_string, pyTruthyStr]
  · intro s
    simp only [ToolSpec.build_command]
    by_cases h1 : pyTruthyStr s.version <;> by_cases h2 : pyTruthyStr s.tool_args <;>
      simp [h1, h2]
  · intro s
    simp only [ToolSpec.build_command_string]
    by_cases h1 : pyTruthyStr s.version <;> by_cases h2 : pyTruthyStr s.tool_args <;>
      simp [h1, h2]

/-! ### Theorems: launcher, ledger write failures, dry-run -/

/-- Helper: with a successful ledger write, run_tool returns the value
determined by the launch outcome. -/
theorem run_tool_record_ok (env : RunEnv) (spec : ToolSpec) (dd ts : String)
    (dry : Bool) (h : env.recordRun = RecordOutcome.ok) :
    (run_tool env spec dd ts dry).1
      = Except.ok (if dry then none else launchPid env.launch) := by
  cases dry
  · cases hl : env.launch <;> simp [run_tool, _record_run, h, hl, launchPid, Except.map]
  · simp [run_tool]

/-- C1 (amended): an OS error raised while appending to the run-history
ledger or while overwriting the last-run marker is not caught by
_record_run or run_tool and escapes the launch operation: on any launch
outcome the error propagates instead of the pid (or None) being returned;
only when the ledger write succeeds does run_tool return the pid of a
successful launch or None for a caught launch failure. -/
theorem c1_ledger_error_escapes_run_tool (env : RunEnv) (spec : ToolSpec) (dd ts : String) :
    (∀ m, env.recordRun = RecordOutcome.appendError m →
      (run_tool env spec dd ts false).1 = Except.error m) ∧
    (∀ m, env.recordRun = RecordOutcome.markerError m →
      (run_tool env spec dd ts false).1 = Except.error m) ∧
    (env.recordRun = RecordOutcome.ok →
      (run_tool env spec dd ts false).1 = Except.ok (launchPid env.launch)) := by
  refine ⟨?_, ?_, ?_⟩
  · intro m h; cases hl : env.launch <;> simp [run_tool, _record_run, h, hl, Except.map]
  · intro m h; cases hl : env.launch <;> simp [run_tool, _record_run, h, hl, Except.map]
  · intro h; exact run_tool_record_ok env spec dd ts false h

/-- C1 (witness): concrete instance of the amended theorem — a successful
launch with pid 42 whose ledger append raises propagates the error. -/
theorem c1_ledger_error_escapes_run_tool_witness :
    (run_tool (RunEnv.mk (LaunchOutcome.launched 42) (RecordOutcome.appendError "disk full"))
        (ToolSpec.mk "fmriprep" "ds" none none [] none)
        "/data/ds" "20250101_000000" false).1
      = Except.error "disk full" :=
  (c1_ledger_error_escapes_run_tool
      (RunEnv.mk (LaunchOutcome.launched 42) (RecordOutcome.appendError "disk full"))
      (ToolSpec.mk "fmriprep" "ds" none none [] none)
      "/data/ds" "20250101_000000").1 "disk full" rfl

/-- C1 (counterexample to the claim as stated): with a successful launch of
pid 42 and a ledger append that raises an OS error, run_tool does not
return the pid — the error propagates out of the launch operation. -/
theorem c1_claimed_pid_return_fails :
    (run_tool (RunEnv.mk (LaunchOutcome.launched 42) (RecordOutcome.appendError "disk full"))
        (ToolSpec.mk "fmriprep" "ds" none none [] none)
        "/data/ds" "20250101_000000" false).1
      = Except.error "disk full" ∧
    (run_tool (RunEnv.mk (LaunchOutcome.launched 42) (RecordOutcome.appendError "disk full"))
        (ToolSpec.mk "fmriprep" "ds" none none [] none)
        "/data/ds" "20250101_000000" false).1
      ≠ Except.ok (some 42) :=
  ⟨rfl, fun h => Except.noConfusion h⟩

/-- C4: a dry run starts no process, appends nothing to the run-history
ledger, never writes the last-run marker, creates no stdout or stderr log
file, and returns None, for every spec and every OS oracle. -/
theorem c4_dry_run_has_no_effects (env : RunEnv) (spec : ToolSpec) (dd ts : String) :
    (run_tool env spec dd ts true).1 = Except.ok none ∧
    (∀ l, FsEvent.ledgerAppend l ∉ (run_tool env spec dd ts true).2) ∧
    FsEvent.lastRunWrite ∉ (run_tool env spec dd ts true).2 ∧
    (∀ p, FsEvent.createLogFile p ∉ (run_tool env spec dd ts true).2) ∧
    (∀ c, FsEvent.spawn c ∉ (run_tool env spec dd ts true).2) := by
  refine ⟨rfl, ?_, ?_, ?_, ?_⟩ <;> simp [run_tool]

/-- C9: run_tool creates the dataset log directory before it checks the
dry-run flag — in every mode the first filesystem action is the mkdir of
`<dataset>/ln2t_watchdog/logs` — and in dry-run mode that mkdir is the only
filesystem action, so no file is created inside the new directory. -/
theorem c9_log_dir_created_before_dry_run_check (env : RunEnv) (spec : ToolSpec) (dd ts : String) :
    (∀ dry, ((run_tool env spec dd ts dry).2).head?
        = some (FsEvent.mkdirLogDir (log_dir_for_dataset dd))) ∧
    (run_tool env spec dd ts true).2 = [FsEvent.mkdirLogDir (log_dir_for_dataset dd)] := by
  refine ⟨?_, rfl⟩
  intro dry
  cases dry
  · cases hl : env.launch <;> simp [run_tool, hl]
  · rfl

/-- Helper for C8: run_all_aux with ledger writes succeeding returns the
per-spec launch results, indexed from the given start index. -/
theorem run_all_aux_collects (env : Nat → RunEnv) (tss : Nat → String) (dd : String)
    (dry : Bool) (h : ∀ i, (env i).recordRun = RecordOutcome.ok) :
    ∀ (specs : List ToolSpec) (i : Nat),
      (run_all_aux env tss dd dry i specs).1
        = Except.ok ((List.range specs.length).map
            fun k => if dry then none else launchPid (env (i + k)).launch) := by
  intro specs
  induction specs with
  | nil => intro i; rfl
  | cons s rest ih =>
    intro i
    simp only [run_all_aux]
    rw [run_tool_record_ok (env i) s dd (tss i) dry (h i)]
    simp only [ih (i + 1), Except.map]
    have hidx : ∀ k, (i + 1) + k = i + (k + 1) := by omega
    simp [List.range_succ_eq_map, List.map_map, Function.comp, hidx]

/-- C8: when the ledger writes succeed, run_all attempts a launch for every
spec in list order and returns one result per spec — the i-th entry is the
i-th spec's pid on success and None on a caught launch failure or dry run —
so a launch failure of one spec never prevents the remaining launches. -/
theorem c8_run_all_one_result_per_spec (env : Nat → RunEnv) (tss : Nat → String)
    (dd : String) (dry : Bool) (specs : List ToolSpec)
    (h : ∀ i, (env i).recordRun = RecordOutcome.ok) :
    (run_all env tss dd dry specs).1
      = Except.ok ((List.range specs.length).map
          fun i => if dry then none else launchPid (env i).launch) ∧
    ((List.range specs.length).map
        fun i => if dry then none else launchPid (env i).launch).length
      = specs.length := by
  constructor
  · have := run_all_aux_collects env tss dd dry h specs 0
    simpa [run_all] using this
  · simp

/-- C8 (witness): two specs where the first launch fails with
FileNotFoundError and the second succeeds with pid 7 — the result has one
entry per spec, None then some 7, so the failure did not stop the sweep. -/
theorem c8_run_all_one_result_per_spec_witness :
    (run_all
        (fun i => match i with
          | 0 => RunEnv.mk LaunchOutcome.fileNotFound RecordOutcome.ok
          | _ + 1 => RunEnv.mk (LaunchOutcome.launched 7) RecordOutcome.ok)
        (fun _ => "20250101_000000") "/data/ds" false
        [ToolSpec.mk "freesurfer" "ds" none none [] none,
         ToolSpec.mk "fmriprep" "ds" none none [] none]).1
      = Except.ok [none, some 7] :=
  ((c8_run_all_one_result_per_spec
      (fun i => match i with
        | 0 => RunEnv.mk LaunchOutcome.fileNotFound RecordOutcome.ok
        | _ + 1 => RunEnv.mk (LaunchOutcome.launched 7) RecordOutcome.ok)
      (fun _ => "20250101_000000") "/data/ds" false
      [ToolSpec.mk "freesurfer" "ds" none none [] none,
       ToolSpec.mk "fmriprep" "ds" none none [] none]
      (fun i => match i with | 0 => rfl | _ + 1 => rfl)).1).trans (by rfl)

/-! ### Theorems: termination controller -/

/-- String concatenation acts as concatenation of the character lists. -/
theorem strData (s t : String) : (s ++ t).data = s.data ++ t.data := rfl

/-- Unequal strings from unequal character lists. -/
theorem ne_of_data_ne {s t : String} (h : s.data ≠ t.data) : s ≠ t :=
  fun he => h (congrArg String.data he)

/-- Two concatenations differing at an index inside both left parts are
unequal. -/
theorem append_eq_append_head_ne {a b x y : List Char} {i : Nat}
    (hi : i < a.length) (hj : i < b.length) (hne : ¬ a[i]? = b[i]?)
    (h : a ++ x = b ++ y) : False := by
  apply hne
  have h1 : (a ++ x)[i]? = a[i]? := List.getElem?_append_left hi
  have h2 : (b ++ y)[i]? = b[i]? := List.getElem?_append_left hj
  rw [← h1, h, h2]

/-- A pattern occurring somewhere in l is found by containsSubList. -/
theorem containsSub_of_matchChars (pat : List Char) (l : List Char)
    (h : (matchChars pat l).isSome = true) : containsSubList pat l = true := by
  cases l with
  | nil =>
    cases pat with
    | nil => rfl
    | cons p ps => simp [matchChars] at h
  | cons c cs => simp [containsSubList, h]

/-- containsSubList is preserved by prepending characters. -/
theorem containsSub_cons (pat : List Char) (c : Char) (l : List Char)
    (h : containsSubList pat l = true) : containsSubList pat (c :: l) = true := by
  simp [containsSubList, h]

/-- containsSubList is preserved by prepending any list. -/
theorem containsSub_append_right (pat : List Char) (a l : List Char)
    (h : containsSubList pat l = true) : containsSubList pat (a ++ l) = true := by
  induction a with
  | nil => exact h
  | cons c a ih => exact containsSub_cons pat c (a ++ l) ih

/-- C6: the two termination operations are total converters from OS
outcomes to (success, message) pairs: a ProcessLookupError at any stage
yields success=False with a message containing "not found", a
PermissionError yields the permission message, any other OSError yields the
mode's failure message, and the permission and other-OSError messages are
distinct from each other and from the not-found messages. -/
theorem c6_termination_error_messages (env : KillEnv) (pid : Nat) :
    (env.getpgid = Except.error OSFailure.processLookup →
      kill_process_group env pid = (false, msgNotFound pid) ∧
      force_kill_process_group env pid = (false, msgNotFound pid)) ∧
    (∀ pgid, env.getpgid = Except.ok pgid →
      env.killCheck = Except.error OSFailure.processLookup →
      kill_process_group env pid = (false, msgAlreadyTerminated pid)) ∧
    (∀ pgid, env.getpgid = Except.ok pgid →
      env.killpgKill = Except.error OSFailure.processLookup →
      force_kill_process_group env pid = (false, msgNotFound pid)) ∧
    (∀ pgid, env.getpgid = Except.ok pgid → env.killCheck = Except.ok () →
      env.killpgTerm = Except.error OSFailure.processLookup →
      kill_process_group env pid = (false, msgNotFound pid)) ∧
    (env.getpgid = Except.error OSFailure.permission →
      kill_process_group env pid = (false, msgPermDenied pid) ∧
      force_kill_process_group env pid = (false, msgPermDenied pid)) ∧
    (∀ m, env.getpgid = Except.error (OSFailure.other m) →
      kill_process_group env pid = (false, msgKillFailed pid m) ∧
      force_kill_process_group env pid = (false, msgForceKillFailed pid m)) ∧
    containsSubList "not found".data (msgNotFound pid).data = true ∧
    containsSubList "not found".data (msgAlreadyTerminated pid).data = true ∧
    msgPermDenied pid ≠ msgNotFound pid ∧
    msgPermDenied pid ≠ msgAlreadyTerminated pid ∧
    (∀ m, msgPermDenied pid ≠ msgKillFailed pid m ∧
          msgPermDenied pid ≠ msgForceKillFailed pid m ∧
          msgKillFailed pid m ≠ msgNotFound pid ∧
          msgKillFailed pid m ≠ msgAlreadyTerminated pid ∧
          msgForceKillFailed pid m ≠ msgNotFound pid ∧
          msgForceKillFailed pid m ≠ msgAlreadyTerminated pid) := by
  refine ⟨?_, ?_, ?_, ?_, ?_, ?_, ?_, ?_, ?_, ?_, ?_⟩
  · intro h
    exact ⟨by simp [kill_process_group, h, killOuterHandler],
           by simp [force_kill_process_group, h, forceOuterHandler]⟩
  · intro pgid h1 h2; simp [kill_process_group, h1, h2]
  · intro pgid h1 h2; simp [force_kill_process_group, h1, h2, forceOuterHandler]
  · intro pgid h1 h2 h3; simp [kill_process_group, h1, h2, h3, killOuterHandler]
  · intro h
    exact ⟨by simp [kill_process_group, h, killOuterHandler],
           by simp [force_kill_process_group, h, forceOuterHandler]⟩
  · intro m h
    exact ⟨by simp [kill_process_group, h, killOuterHandler],
           by simp [force_kill_process_group, h, forceOuterHandler]⟩
  · exact containsSub_append_right _ ("Process ".data ++ (natStr pid).data) _ (by decide)
  · exact containsSub_append_right _ ("Process ".data ++ (natStr pid).data) _ (by decide)
  · apply ne_of_data_ne
    intro hd
    simp only [msgPermDenied, msgNotFound, strData, List.append_assoc] at hd
    exact append_eq_append_head_ne (a := "Permission denied to kill PID ".data)
      (b := "Process ".data) (i := 1) (by decide) (by decide) (by decide) hd
  · apply ne_of_data_ne
    intro hd
    simp only [msgPermDenied, msgAlreadyTerminated, strData, List.append_assoc] at hd
    exact append_eq_append_head_ne (a := "Permission denied to kill PID ".data)
      (b := "Process ".data) (i := 1) (by decide) (by decide) (by decide) hd
  · intro m
    refine ⟨?_, ?_, ?_, ?_, ?_, ?_⟩
    · apply ne_of_data_ne
      intro hd
      simp only [msgPermDenied, msgKillFailed, strData, List.append_assoc] at hd
      exact append_eq_append_head_ne (a := "Permission denied to kill PID ".data)
        (b := "Failed to kill PID ".data) (i := 0) (by decide) (by decide) (by decide) hd
    · apply ne_of_data_ne
      intro hd
      simp only [msgPermDenied, msgForceKillFailed, strData, List.append_assoc] at hd
      exact append_eq_append_head_ne (a := "Permission denied to kill PID ".data)
        (b := "Failed to force-kill PID ".data) (i := 0) (by decide) (by decide) (by decide) hd
    · apply ne_of_data_ne
      intro hd
      simp only [msgKillFailed, msgNotFound, strData, List.append_assoc] at hd
      exact append_eq_append_head_ne (a := "Failed to kill PID ".data)
        (b := "Process ".data) (i := 0) (by decide) (by decide) (by decide) hd
    · apply ne_of_data_ne
      intro hd
      simp only [msgKillFailed, msgAlreadyTerminated, strData, List.append_assoc] at hd
      exact append_eq_append_head_ne (a := "Failed to kill PID ".data)
        (b := "Process ".data) (i := 0) (by decide) (by decide) (by decide) hd
    · apply ne_of_data_ne
      intro hd
      simp only [msgForceKillFailed, msgNotFound, strData, List.append_assoc] at hd
      exact append_eq_append_head_ne (a := "Failed to force-kill PID ".data)
        (b := "Process ".data) (i := 0) (by decide) (by decide) (by decide) hd
    · apply ne_of_data_ne
      intro hd
      simp only [msgForceKillFailed, msgAlreadyTerminated, strData, List.append_assoc] at hd
      exact append_eq_append_head_ne (a := "Failed to force-kill PID ".data)
        (b := "Process ".data) (i := 0) (by decide) (by decide) (by decide) hd

/-- C6 (witness): on a pid whose group resolution raises
ProcessLookupError, both modes report failure with the concrete "not found"
message. -/
theorem c6_termination_error_messages_witness :
    kill_process_group
        (KillEnv.mk (Except.error OSFailure.processLookup)
          (Except.ok ()) (Except.ok ()) (Except.ok ())) 4242
      = (false, "Process 4242 not found") ∧
    force_kill_process_group
        (KillEnv.mk (Except.error OSFailure.processLookup)
          (Except.ok ()) (Except.ok ()) (Except.ok ())) 4242
      = (false, "Process 4242 not found") := by
  have h := (c6_termination_error_messages
      (KillEnv.mk (Except.error OSFailure.processLookup)
        (Except.ok ()) (Except.ok ()) (Except.ok ())) 4242).1 rfl
  exact ⟨h.1.trans (by decide), h.2.trans (by decide)⟩

/-! ### Theorems: kill command confirmation -/

/-- C7: selecting more than one job without the force flag always issues
the confirmation prompt, and a response whose stripped lowercase form is
not "y" terminates nothing; selecting exactly one job never prompts,
whatever the force flag and response, and kills exactly that job. -/
theorem c7_multi_job_confirmation (jobs : List Job) (force : Bool) (resp : String) :
    (1 < jobs.length → force = false →
      (cmd_kill_confirm jobs force resp).1 = true ∧
      (stripLower resp ≠ "y" → (cmd_kill_confirm jobs force resp).2 = [])) ∧
    (jobs.length = 1 →
      (cmd_kill_confirm jobs force resp).1 = false ∧
      (cmd_kill_confirm jobs force resp).2 = jobs.map fun j => j.1) := by
  constructor
  · intro hlen hforce
    subst hforce
    have hne : jobs.isEmpty = false := by
      cases jobs with
      | nil => simp at hlen
      | cons j js => rfl
    constructor
    · by_cases hy : stripLower resp ≠ "y" <;> simp [cmd_kill_confirm, hne, hlen, hy]
    · intro hy; simp [cmd_kill_confirm, hne, hlen, hy]
  · intro hlen
    obtain ⟨j, rfl⟩ := List.length_eq_one.mp hlen
    exact ⟨by simp [cmd_kill_confirm], by simp [cmd_kill_confirm, pySortJobs, insertJob]⟩

/-- C7 (witness): two selected jobs, no force flag, response "n": the
prompt is issued and nothing is killed. -/
theorem c7_multi_job_confirmation_witness :
    (cmd_kill_confirm [(1, "dsA", "freesurfer", "t1"), (2, "dsB", "fmriprep", "t2")]
        false "n").1 = true ∧
    (cmd_kill_confirm [(1, "dsA", "freesurfer", "t1"), (2, "dsB", "fmriprep", "t2")]
        false "n").2 = [] := by
  have h := (c7_multi_job_confirmation
      [(1, "dsA", "freesurfer", "t1"), (2, "dsB", "fmriprep", "t2")] false "n").1
      (by decide) rfl
  exact ⟨h.1, h.2 (by decide)⟩

/-! ### Theorems: ledger line parsing (round-trip machinery) -/

/-- The marker as an explicit character list. -/
theorem markerChars_eq :
    markerChars
      = ['S', 'T', 'A', 'R', 'T', 'E', 'D', ' ', '(', 'P', 'I', 'D', ' '] := rfl

/-- A non-empty string has a non-empty character list. -/
theorem data_ne_nil {s : String} (h : s ≠ "") : s.data ≠ [] := by
  intro hd
  apply h
  calc s = String.mk s.data := rfl
    _ = String.mk [] := by rw [hd]
    _ = "" := rfl

/-- A character outside the whitespace set is not a space. -/
theorem ne_space_of_not_ws {c : Char} (h : isPyWs c = false) : c ≠ ' ' := by
  intro hc
  subst hc
  simp [isPyWs] at h

/-- Matching a pattern against itself followed by anything succeeds with
the remainder. -/
theorem matchChars_self_append : ∀ (m r : List Char), matchChars m (m ++ r) = some r := by
  intro m
  induction m with
  | nil => intro r; rfl
  | cons p ps ih => intro r; simp [matchChars, ih]

/-- Matching a SpaceGuard pattern against a non-space run followed by two
spaces always fails: the pattern cannot be exhausted inside the run (the
guard bottoms out before its own space is reached), and on crossing into
the separator it meets two consecutive spaces, which the guard excludes. -/
theorem matchChars_none_of_spaceGuard :
    ∀ (sw ms rest : List Char), (∀ c ∈ sw, c ≠ ' ') → SpaceGuard ms →
      matchChars ms (sw ++ ' ' :: ' ' :: rest) = none := by
  intro sw
  induction sw with
  | nil =>
    intro ms rest _ hg
    cases ms with
    | nil => exact absurd hg id
    | cons m ms' => exact hg.1 rest
  | cons c sw' ih =>
    intro ms rest hfree hg
    cases ms with
    | nil => exact absurd hg id
    | cons m ms' =>
      simp only [List.cons_append, matchChars]
      by_cases hcm : c = m
      · rw [if_pos hcm]
        have hcs : c ≠ ' ' := hfree c (by simp)
        exact ih ms' rest (fun x hx => hfree x (by simp [hx]))
          (hg.2 (hcm ▸ hcs))
      · rw [if_neg hcm]

/-- The marker "STARTED (PID " satisfies the guard: its first seven
characters are letters, and its space at index 7 is followed by a
parenthesis. -/
theorem spaceGuard_marker : SpaceGuard markerChars := by
  rw [markerChars_eq]
  exact ⟨fun r => rfl, fun _ =>
    ⟨fun r => rfl, fun _ =>
      ⟨fun r => rfl, fun _ =>
        ⟨fun r => rfl, fun _ =>
          ⟨fun r => rfl, fun _ =>
            ⟨fun r => rfl, fun _ =>
              ⟨fun r => rfl, fun _ =>
                ⟨fun r => rfl, fun h => absurd rfl h⟩⟩⟩⟩⟩⟩⟩⟩

/-- The regex match fails on any list not starting with 'S'. -/
theorem matchPidAt_not_S {c : Char} (hc : c ≠ 'S') (l : List Char) :
    matchPidAt (c :: l) = none := by
  simp [matchPidAt, markerChars_eq, matchChars, hc]

/-- The regex match fails anywhere inside a whitespace-free run that is
followed by the two-space field separator. -/
theorem matchPidAt_token (sw : List Char)
    (hfree : ∀ c ∈ sw, isPyWs c = false) (rest : List Char) :
    matchPidAt (sw ++ ' ' :: ' ' :: rest) = none := by
  have hnone : matchChars markerChars (sw ++ ' ' :: ' ' :: rest) = none :=
    matchChars_none_of_spaceGuard sw markerChars rest
      (fun c hc => ne_space_of_not_ws (hfree c hc)) spaceGuard_marker
  simp [matchPidAt, hnone]

/-- findPid steps over a head whose match fails. -/
theorem findPid_cons_none {c : Char} {cs : List Char}
    (h : matchPidAt (c :: cs) = none) : findPid (c :: cs) = findPid cs := by
  simp [findPid, h]

/-- findPid returns the head match when it succeeds. -/
theorem findPid_cons_some {c : Char} {cs : List Char} {n : Nat}
    (h : matchPidAt (c :: cs) = some n) : findPid (c :: cs) = some n := by
  simp [findPid, h]

/-- findPid skips a whitespace-free field and its two-space separator. -/
theorem findPid_skip_token :
    ∀ (w rest : List Char), (∀ c ∈ w, isPyWs c = false) →
      findPid (w ++ ' ' :: ' ' :: rest) = findPid rest := by
  intro w
  induction w with
  | nil =>
    intro rest _
    rw [List.nil_append,
      findPid_cons_none (matchPidAt_not_S (by decide) _),
      findPid_cons_none (matchPidAt_not_S (by decide) _)]
  | cons c w' ih =>
    intro rest hfree
    rw [List.cons_append,
      findPid_cons_none
        (by
          have := matchPidAt_token (c :: w') hfree rest
          simpa using this)]
    exact ih rest (fun x hx => hfree x (by simp [hx]))

/-- takeWhile over a satisfying run followed by a failing element yields
the run. -/
theorem takeWhile_append_all (p : Char → Bool) :
    ∀ (xs : List Char) (y : Char) (ys : List Char),
      (∀ x ∈ xs, p x = true) → p y = false →
      (xs ++ y :: ys).takeWhile p = xs := by
  intro xs
  induction xs with
  | nil => intro y ys _ h2; simp [List.takeWhile, h2]
  | cons a as ih =>
    intro y ys h1 h2
    simp only [List.cons_append, List.takeWhile_cons]
    rw [h1 a (by simp)]
    simp [ih y ys (fun x hx => h1 x (by simp [hx])) h2]

/-- dropWhile over a satisfying run followed by a failing element yields
the failing element and the rest. -/
theorem dropWhile_append_all (p : Char → Bool) :
    ∀ (xs : List Char) (y : Char) (ys : List Char),
      (∀ x ∈ xs, p x = true) → p y = false →
      (xs ++ y :: ys).dropWhile p = y :: ys := by
  intro xs
  induction xs with
  | nil => intro y ys _ h2; simp [List.dropWhile, h2]
  | cons a as ih =>
    intro y ys h1 h2
    simp only [List.cons_append, List.dropWhile_cons]
    rw [h1 a (by simp)]
    simp [ih y ys (fun x hx => h1 x (by simp [hx])) h2]

/-- Value and digit-hood of Nat.digitChar below 10. -/
theorem digitChar_below_ten {d : Nat} (hd : d < 10) :
    (Nat.digitChar d).toNat = 48 + d ∧ (Nat.digitChar d).isDigit = true := by
  interval_cases d <;> exact ⟨rfl, rfl⟩

/-- digitsVal of a list extended by one digit. -/
theorem digitsVal_append_single (xs : List Char) (c : Char) :
    digitsVal (xs ++ [c]) = digitsVal xs * 10 + (c.toNat - 48) := by
  simp [digitsVal, List.foldl_append]

/-- The fuel-driven printer is correct, non-empty and all-digit whenever
the fuel exceeds the number. -/
theorem decimalDigitsAux_spec :
    ∀ (fuel n : Nat), n < fuel →
      digitsVal (decimalDigitsAux fuel n) = n ∧
      decimalDigitsAux fuel n ≠ [] ∧
      ∀ c ∈ decimalDigitsAux fuel n, c.isDigit = true := by
  intro fuel
  induction fuel with
  | zero => intro n hn; omega
  | succ f ih =>
    intro n hn
    by_cases h10 : n < 10
    · refine ⟨?_, ?_, ?_⟩
      · simp [decimalDigitsAux, h10, digitsVal, (digitChar_below_ten h10).1]
      · simp [decimalDigitsAux, h10]
      · intro c hc
        simp [decimalDigitsAux, h10] at hc
        rw [hc]
        exact (digitChar_below_ten h10).2
    · have hdiv : n / 10 < f := by omega
      obtain ⟨ihv, ihne, ihd⟩ := ih (n / 10) hdiv
      refine ⟨?_, ?_, ?_⟩
      · rw [show decimalDigitsAux (f + 1) n
            = decimalDigitsAux f (n / 10) ++ [Nat.digitChar (n % 10)] by
              simp [decimalDigitsAux, h10]]
        rw [digitsVal_append_single, ihv, (digitChar_below_ten (by omega)).1]
        omega
      · simp [decimalDigitsAux, h10]
      · intro c hc
        rw [show decimalDigitsAux (f + 1) n
            = decimalDigitsAux f (n / 10) ++ [Nat.digitChar (n % 10)] by
              simp [decimalDigitsAux, h10]] at hc
        rcases List.mem_append.mp hc with h | h
        · exact ihd c h
        · rw [List.mem_singleton.mp h]
          exact (digitChar_below_ten (by omega)).2

/-- decimalDigits renders n faithfully: parsing it back gives n, it is
never empty, and it consists of digit characters only. -/
theorem decimalDigits_spec (n : Nat) :
    digitsVal (decimalDigits n) = n ∧
    decimalDigits n ≠ [] ∧
    ∀ c ∈ decimalDigits n, c.isDigit = true :=
  decimalDigitsAux_spec (n + 1) n (by omega)

/-- The regex match anchored at the marker followed by the digits of pid
and a closing parenthesis recovers pid. -/
theorem matchPidAt_marker (pid : Nat) (tail : List Char) :
    matchPidAt (markerChars ++ (decimalDigits pid ++ (')' :: tail))) = some pid := by
  obtain ⟨hv, hne, hdig⟩ := decimalDigits_spec pid
  have htake : (decimalDigits pid ++ (')' :: tail)).takeWhile Char.isDigit
      = decimalDigits pid :=
    takeWhile_append_all Char.isDigit (decimalDigits pid) ')' tail hdig (by decide)
  have hdrop : (decimalDigits pid ++ (')' :: tail)).dropWhile Char.isDigit
      = ')' :: tail :=
    dropWhile_append_all Char.isDigit (decimalDigits pid) ')' tail hdig (by decide)
  simp [matchPidAt, matchChars_self_append, htake, hdrop, hne, hv]

/-- pySplitMax ignores leading whitespace. -/
theorem pySplitMax_ws_cons (k : Nat) {c : Char} (hc : isPyWs c = true) (l : List Char) :
    pySplitMax k (c :: l) = pySplitMax k l := by
  unfold pySplitMax
  rw [List.dropWhile_cons]
  simp [hc]

/-- One splitting step of pySplitMax on input starting with a
non-whitespace character. -/
theorem pySplitMax_succ_cons (k : Nat) {c : Char} (hc : isPyWs c = false) (l : List Char) :
    pySplitMax (k + 1) (c :: l)
      = ((c :: l).takeWhile (fun x => !isPyWs x))
          :: pySplitMax k ((c :: l).dropWhile (fun x => !isPyWs x)) := by
  conv_lhs => unfold pySplitMax
  rw [List.dropWhile_cons]
  simp [hc]

/-- With the split budget exhausted, the remainder (leading whitespace
already absent) is the final part. -/
theorem pySplitMax_zero_cons {c : Char} (hc : isPyWs c = false) (l : List Char) :
    pySplitMax 0 (c :: l) = [c :: l] := by
  unfold pySplitMax
  rw [List.dropWhile_cons]
  simp [hc]

/-- pySplitMax extracts a whitespace-free field followed by the two-space
separator as one part. -/
theorem pySplitMax_token (k : Nat) {w : List Char} (hne : w ≠ [])
    (hfree : ∀ c ∈ w, isPyWs c = false) (rest : List Char) :
    pySplitMax (k + 1) (w ++ ' ' :: ' ' :: rest) = w :: pySplitMax k rest := by
  obtain ⟨a, w', rfl⟩ := List.exists_cons_of_ne_nil hne
  have ha : isPyWs a = false := hfree a (by simp)
  have htake : ((a :: w') ++ ' ' :: ' ' :: rest).takeWhile (fun x => !isPyWs x) = a :: w' :=
    takeWhile_append_all _ (a :: w') ' ' (' ' :: rest)
      (fun x hx => by simp [hfree x hx]) (by decide)
  have hdrop : ((a :: w') ++ ' ' :: ' ' :: rest).dropWhile (fun x => !isPyWs x)
      = ' ' :: ' ' :: rest :=
    dropWhile_append_all _ (a :: w') ' ' (' ' :: rest)
      (fun x hx => by simp [hfree x hx]) (by decide)
  rw [List.cons_append, pySplitMax_succ_cons k ha, ← List.cons_append, htake, hdrop,
    pySplitMax_ws_cons k (by decide), pySplitMax_ws_cons k (by decide)]

/-- String.mk undoes String.data. -/
theorem mk_data (s : String) : String.mk s.data = s := rfl

/-- Round-trip of the writer and the parser on one ledger line: a STARTED
line written by the ledger for non-empty whitespace-free timestamp, dataset
and tool fields parses back to exactly those fields and the recorded pid. -/
theorem parse_record_line (ts ds tool : String) (pid : Nat)
    (hts : ts ≠ "") (hds : ds ≠ "") (htool : tool ≠ "")
    (wts : wsFreeStr ts) (wds : wsFreeStr ds) (wtool : wsFreeStr tool) :
    parseStartedLine (record_line ts ds tool (started_status pid))
      = some (pid, ds, tool, ts) := by
  have hsep : ("  " : String).data = [' ', ' '] := rfl
  have hparen : ((")" : String)).data = [')'] := rfl
  have hmkd : (natStr pid).data = decimalDigits pid := rfl
  have hmarker : (("STARTED (PID " : String)).data = markerChars := rfl
  have hline : (record_line ts ds tool (started_status pid)).data
      = ts.data ++ ' ' :: ' ' :: (ds.data ++ ' ' :: ' ' :: (tool.data
          ++ ' ' :: ' ' :: (markerChars ++ (decimalDigits pid ++ (')' :: []))))) := by
    simp only [record_line, started_status, strData, hsep, hparen, hmkd, hmarker,
      List.append_assoc, List.cons_append, List.nil_append]
    rw [markerChars_eq]
    simp only [List.cons_append, List.nil_append]
  have hconsform : markerChars ++ (decimalDigits pid ++ (')' :: []))
      = 'S' :: (['T', 'A', 'R', 'T', 'E', 'D', ' ', '(', 'P', 'I', 'D', ' ']
          ++ (decimalDigits pid ++ (')' :: []))) := by
    rw [markerChars_eq]; rfl
  have hcontains : containsSubList markerChars
      (record_line ts ds tool (started_status pid)).data = true := by
    rw [hline]
    apply containsSub_append_right _ ts.data
    apply containsSub_cons; apply containsSub_cons
    apply containsSub_append_right _ ds.data
    apply containsSub_cons; apply containsSub_cons
    apply containsSub_append_right _ tool.data
    apply containsSub_cons; apply containsSub_cons
    apply containsSub_of_matchChars
    rw [matchChars_self_append]
    rfl
  have hfind : findPid (record_line ts ds tool (started_status pid)).data = some pid := by
    rw [hline, findPid_skip_token ts.data _ wts, findPid_skip_token ds.data _ wds,
      findPid_skip_token tool.data _ wtool]
    have hm : matchPidAt (markerChars ++ (decimalDigits pid ++ (')' :: []))) = some pid :=
      matchPidAt_marker pid []
    rw [hconsform] at hm ⊢
    exact findPid_cons_some hm
  have hsplit : pySplitMax 3 (record_line ts ds tool (started_status pid)).data
      = [ts.data, ds.data, tool.data,
         markerChars ++ (decimalDigits pid ++ (')' :: []))] := by
    rw [hline, pySplitMax_token 2 (data_ne_nil hts) wts,
      pySplitMax_token 1 (data_ne_nil hds) wds,
      pySplitMax_token 0 (data_ne_nil htool) wtool, hconsform,
      pySplitMax_zero_cons (by decide)]
  simp only [parseStartedLine, hcontains, hfind, hsplit, if_true, mk_data]

/-- filterMap maps an interleaving to an interleaving: parsing each line
independently preserves any merge of two append sequences. -/
theorem interleave_filterMap {α β : Type} (f : α → Option β) :
    ∀ {xs ys zs : List α}, Interleave xs ys zs →
      Interleave (xs.filterMap f) (ys.filterMap f) (zs.filterMap f) := by
  intro xs ys zs h
  induction h with
  | nil => exact .nil
  | @left x xs' ys' zs' _ ih =>
    cases hf : f x <;> simp only [List.filterMap_cons, hf]
    · exact ih
    · exact .left ih
  | @right y xs' ys' zs' _ ih =>
    cases hf : f y <;> simp only [List.filterMap_cons, hf]
    · exact ih
    · exact .right ih

/-- An interleaving is a permutation of the concatenation. -/
theorem interleave_perm {α : Type} :
    ∀ {xs ys zs : List α}, Interleave xs ys zs → List.Perm zs (xs ++ ys) := by
  intro xs ys zs h
  induction h with
  | nil => exact List.Perm.refl []
  | @left x xs' ys' zs' _ ih => exact ih.cons x
  | @right y xs' ys' zs' _ ih => exact (ih.cons y).trans List.perm_middle.symm

/-- C3 (amended): for non-empty whitespace-free timestamp, dataset and tool
fields and any pid, the ledger line written by _record_run with status
"STARTED (PID n)" parses back to exactly (n, dataset, tool, timestamp); the
trace of a successful _record_run contains exactly that appended line (and
the marker update); and since the ledger parse is a per-line filterMap, any
interleaving of the lines of two writer sequences parses to a permutation
of the union of the per-line results. -/
theorem c3_ledger_roundtrip_and_interleaving :
    (∀ (ts ds tool : String) (pid : Nat), ts ≠ "" → ds ≠ "" → tool ≠ "" →
      wsFreeStr ts → wsFreeStr ds → wsFreeStr tool →
      parseStartedLine (record_line ts ds tool (started_status pid))
        = some (pid, ds, tool, ts)) ∧
    (∀ (s : ToolSpec) (pid : Nat) (ts : String),
      (_record_run RecordOutcome.ok s (started_status pid) ts).2
        = [FsEvent.ledgerAppend
            (record_line ts s.dataset_name s.tool_name (started_status pid)),
           FsEvent.lastRunWrite]) ∧
    (∀ (l1 l2 l : List String), Interleave l1 l2 l →
      List.Perm (parseLedger l) (parseLedger l1 ++ parseLedger l2)) := by
  refine ⟨?_, fun _ _ _ => rfl, ?_⟩
  · intro ts ds tool pid hts hds htool wts wds wtool
    exact parse_record_line ts ds tool pid hts hds htool wts wds wtool
  · intro l1 l2 l h
    exact interleave_perm (interleave_filterMap parseStartedLine h)

/-- C3 (witness): concrete round-trip through writer and parser, plus a
concrete interleaving of two one-line ledgers. -/
theorem c3_ledger_roundtrip_witness :
    parseStartedLine
        (record_line "20250101_120000" "dsA" "fmriprep" (started_status 4242))
      = some (4242, "dsA", "fmriprep", "20250101_120000") :=
  c3_ledger_roundtrip_and_interleaving.1 "20250101_120000" "dsA" "fmriprep" 4242
    (by decide) (by decide) (by decide)
    (by unfold wsFreeStr; decide) (by unfold wsFreeStr; decide) (by unfold wsFreeStr; decide)

/-- C3 (counterexample to the claim as stated): the empty dataset name
contains no whitespace, yet the written line collapses its separator pair,
so the parser mis-assigns the fields instead of returning the written
tuple. -/
theorem c3_empty_field_counterexample :
    parseStartedLine (record_line "t" "" "x" (started_status 5))
      ≠ some (5, "", "x", "t") ∧
    parseStartedLine (record_line "t" "" "x" (started_status 5))
      = some (5, "x", "STARTED", "t") := by
  constructor
  · decide
  · decide

/-! ### Theorems: liveness reconstructor -/

/-- C2: for every probe oracle and ledger, the reconstructed roster is
exactly the parsed STARTED candidates whose existence probe succeeds or
fails with permission-denied; candidates whose probe reports no such
process or any other OS error are excluded, and every probe outcome is
converted per candidate, so no outcome aborts the reconstruction. -/
theorem c2_probe_outcome_selection (probe : Nat → ProbeResult) (ledger : List String) :
    get_running_jobs probe ledger
      = (parseLedger ledger).filter
          (fun j => decide (probe j.1 = ProbeResult.alive
            ∨ probe j.1 = ProbeResult.permissionDenied)) ∧
    (∀ j : Job, j ∈ get_running_jobs probe ledger ↔
      j ∈ parseLedger ledger ∧ (probe j.1 = ProbeResult.alive
        ∨ probe j.1 = ProbeResult.permissionDenied)) := by
  have hmain : get_running_jobs probe ledger
      = (parseLedger ledger).filter
          (fun j => decide (probe j.1 = ProbeResult.alive
            ∨ probe j.1 = ProbeResult.permissionDenied)) := by
    induction ledger with
    | nil => rfl
    | cons line rest ih =>
      simp only [get_running_jobs, parseLedger, List.filterMap_cons] at ih ⊢
      cases hp : parseStartedLine line with
      | none => simpa using ih
      | some j =>
        cases hr : probe j.1 <;> simp [hr, List.filter_cons, ih]
  refine ⟨hmain, ?_⟩
  intro j
  rw [hmain, List.mem_filter]
  simp
